import Mathlib

/-!
Shallow embedding of `src/index.ts` of `@chneau/typed-meteor`.

The source exports two factory functions:

* `typedMethod(props)` — if `Meteor.isServer`, registers `props.fn` under
  `props.name` via `Meteor.methods({[props.name]: props.fn})`, and returns the
  client callable
  `(x) => Meteor.callAsync(props.name, props.input?.parse(x)).then((x) => props.output?.parse(x) ?? x)`.
* `typedSubscribe(props)` — if `Meteor.isServer`, registers `props.fn` under
  `props.name` via `Meteor.publish(props.name, props.fn)`, and returns the hook
  `(input, deps?) => useTracker(() => { Meteor.subscribe(props.name, props.input?.parse(input));
   return props.collection.find().map((x) => props.output?.parse(x) ?? x); }, deps)`.

JavaScript runtime values are embedded as the inductive `Val`; a zod schema is
embedded as its `parse` capability, a function that either returns a value or
throws (`Except`).  The Meteor host is embedded explicitly: the method/publication
registries as association lists, the transport (`Meteor.callAsync`) as a function
from name and argument to a resolved or rejected result, and the per-collection
local document cache as a function from collection handle to its current
`find()` contents.  `useTracker` evaluates its thunk against the current store on
every (re)render; the embedding therefore models one invocation of the returned
hook as one evaluation of the thunk body against the current store snapshot.
-/

set_option autoImplicit false

namespace TypedMeteor

/-- Embedded JavaScript runtime values.  `undef` and `null` are the two nullish
values; objects are association lists of fields. -/
inductive Val where
  | undef
  | null
  | bool (b : Bool)
  | num (n : Int)
  | str (s : String)
  | arr (elems : List Val)
  | obj (fields : List (String × Val))

/-- Errors thrown by schema parsing or rejected by the transport, carried as
their message. -/
abbrev Err := String

/-- A zod schema, embedded as its parse capability: `parse` returns the parsed
value or throws (models `z.ZodType.parse`, including schemas with `transform`,
whose parse result need not equal — nor be as non-nullish as — its argument). -/
structure Schema where
  parse : Val → Except Err Val

/-- Whether a value is nullish (`null` or `undefined`), the test applied by the
JavaScript `??` operator to its left operand. -/
def isNullish : Val → Bool
  | .undef => true
  | .null => true
  | _ => false

/-- True exactly on `Except.error`. -/
def isErr {α : Type} : Except Err α → Bool
  | .error _ => true
  | .ok _ => false

/-- The expression `props.input?.parse(x)` (src/index.ts lines 25 and 49):
optional chaining short-circuits to `undefined` when the schema is absent, so
the absent-schema case produces `undefined`, not `x`; when present, `parse` runs
and may throw. -/
def optionalParse (input : Option Schema) (x : Val) : Except Err Val :=
  match input with
  | none => .ok .undef
  | some s => s.parse x

/-- The expression `props.output?.parse(x) ?? x` (src/index.ts lines 28 and 50):
absent schema short-circuits to `undefined` and `?? x` yields the raw `x`;
present schema parses (propagating a thrown error), and `??` replaces a nullish
parse result by the raw `x`. -/
def outputStage (output : Option Schema) (x : Val) : Except Err Val :=
  match output with
  | none => .ok x
  | some s => (s.parse x).map (fun r => if isNullish r then x else r)

/-- JavaScript `Array.prototype.map` under a callback that may throw: elements
are processed left to right and the first thrown error aborts the whole map. -/
def mapExcept (f : Val → Except Err Val) : List Val → Except Err (List Val)
  | [] => .ok []
  | x :: xs =>
    match f x with
    | .error e => .error e
    | .ok y =>
      match mapExcept f xs with
      | .error e => .error e
      | .ok ys => .ok (y :: ys)

/-- A registered method handler (`props.fn` of `typedMethod`): from the input it
receives to a promise that resolves or rejects. -/
abbrev MethodHandler := Val → Except Err Val

/-- A registered publication handler (`props.fn` of `typedSubscribe`): returns
`void` or a cursor (embedded as the list of documents the cursor yields). -/
abbrev PubHandler := Val → Option (List Val)

/-- The host's method registry (`Meteor.methods`). -/
abbrev MethodRegistry := List (String × MethodHandler)

/-- The host's publication registry (`Meteor.publish`). -/
abbrev PubRegistry := List (String × PubHandler)

/-- The host transport primitive `Meteor.callAsync`: given a method name and the
single argument, resolves with a raw value or rejects with an error. -/
abbrev Transport := String → Val → Except Err Val

/-- Host registry lookup: first entry registered under the name. -/
def lookupReg {α : Type} : List (String × α) → String → Option α
  | [], _ => none
  | (n, f) :: rest, name => if n = name then some f else lookupReg rest name

/-- The host dispatching a method call to its registry: applies the registered
handler as-is to the argument, or rejects when the name is not registered. -/
def dispatch (reg : MethodRegistry) (name : String) (arg : Val) : Except Err Val :=
  match lookupReg reg name with
  | none => .error ("Method not found [404]: " ++ name)
  | some f => f arg

/-- The host dispatching a subscription to its publication registry: applies the
registered publisher as-is to the argument. -/
def pubDispatch (reg : PubRegistry) (name : String) (arg : Val) :
    Option (Option (List Val)) :=
  (lookupReg reg name).map (fun f => f arg)

/-- The record `TypedMethodProps` (src/index.ts lines 33–41). -/
structure TypedMethodProps where
  name : String
  input : Option Schema
  output : Option Schema
  fn : MethodHandler

/-- Outcome of one invocation of the callable returned by `typedMethod`,
keeping the provenance of a failure:
`syncError` is a synchronous throw of the argument expression
`props.input?.parse(x)`, raised before `Meteor.callAsync` runs;
`transportError` is the rejection of the `callAsync` promise, propagated
unmodified because `.then` is skipped on rejection;
`outputError` is a throw inside the `.then` callback (output parse);
`resolved` is the value the promise resolves with. -/
inductive MethodOutcome where
  | syncError (e : Err)
  | transportError (e : Err)
  | outputError (e : Err)
  | resolved (v : Val)

/-- One invocation of the callable of src/index.ts lines 48–51:
`(x) => Meteor.callAsync(props.name, props.input?.parse(x)).then((x) => props.output?.parse(x) ?? x)`.
The second component counts how many times the transport primitive was
invoked during this call. -/
def methodCall (props : TypedMethodProps) (transport : Transport) (x : Val) :
    MethodOutcome × Nat :=
  match optionalParse props.input x with
  | .error e => (.syncError e, 0)
  | .ok arg =>
    match transport props.name arg with
    | .error e => (.transportError e, 1)
    | .ok raw =>
      match outputStage props.output raw with
      | .error e => (.outputError e, 1)
      | .ok v => (.resolved v, 1)

/-- The factory `typedMethod` (src/index.ts lines 42–52): when `Meteor.isServer`, registers
`props.fn` under `props.name` in the method registry, and returns the client
callable; the registry is threaded explicitly, and the callable is closed over
`props` exactly as in the source. -/
def typedMethod (isServer : Bool) (props : TypedMethodProps) (reg : MethodRegistry) :
    MethodRegistry × (Transport → Val → MethodOutcome × Nat) :=
  (if isServer then (props.name, props.fn) :: reg else reg,
   fun transport x => methodCall props transport x)

/-- The record `TypedSubscribeProps` (src/index.ts lines 8–16); `collection` is the handle
of the bound Mongo collection, resolved against the host's current local
document store at read time. -/
structure TypedSubscribeProps where
  name : String
  input : Option Schema
  output : Option Schema
  collection : String
  fn : PubHandler

/-- One invocation of the hook body of src/index.ts lines 23–30 against the
current store (`store handle` is the current result of `handle.find()`):
evaluates `props.input?.parse(input)` (a throw aborts before `Meteor.subscribe`
runs), issues the subscribe request, then maps the current documents through
`(x) => props.output?.parse(x) ?? x`.  The first component is the returned
array or the thrown error; the second is the ordered list of subscribe
requests `(name, argument)` issued during the invocation. -/
def subscribeCall (props : TypedSubscribeProps) (store : String → List Val)
    (input : Val) : Except Err (List Val) × List (String × Val) :=
  match optionalParse props.input input with
  | .error e => (.error e, [])
  | .ok arg =>
    match mapExcept (outputStage props.output) (store props.collection) with
    | .error e => (.error e, [(props.name, arg)])
    | .ok docs => (.ok docs, [(props.name, arg)])

/-- The factory `typedSubscribe` (src/index.ts lines 17–31): when `Meteor.isServer`,
registers `props.fn` under `props.name` in the publication registry, and
returns the hook, whose one evaluation against the current store is
`subscribeCall`. -/
def typedSubscribe (isServer : Bool) (props : TypedSubscribeProps) (reg : PubRegistry) :
    PubRegistry × ((String → List Val) → Val → Except Err (List Val) × List (String × Val)) :=
  (if isServer then (props.name, props.fn) :: reg else reg,
   fun store input => subscribeCall props store input)

/-- A concrete schema used in witnesses: accepts exactly numbers (models
`z.number()`). -/
def numSchema : Schema :=
  ⟨fun v => match v with
    | .num n => .ok (.num n)
    | _ => .error "expected number"⟩

/-- A concrete schema whose parse succeeds with `null` on every input (models
`z.any().transform(() => null)`). -/
def nullifySchema : Schema :=
  ⟨fun _ => .ok .null⟩

/-- A transport that resolves with the argument it was sent (used in witnesses
to observe what the callable forwarded). -/
def echoTransport : Transport :=
  fun _ v => .ok v

theorem mapExcept_ok_length (f : Val → Except Err Val) :
    ∀ (l r : List Val), mapExcept f l = .ok r → r.length = l.length
  | [], r, h => by
      simp only [mapExcept, Except.ok.injEq] at h
      simp [← h]
  | x :: xs, r, h => by
      unfold mapExcept at h
      cases hfx : f x with
      | error e => rw [hfx] at h; exact absurd h (by simp)
      | ok y =>
        rw [hfx] at h
        cases hm : mapExcept f xs with
        | error e => rw [hm] at h; exact absurd h (by simp)
        | ok ys =>
          rw [hm] at h
          injection h with h2
          subst h2
          simp [mapExcept_ok_length f xs ys hm]

theorem mapExcept_ok_get (f : Val → Except Err Val) :
    ∀ (l r : List Val), mapExcept f l = .ok r →
      ∀ (i : Nat) (hi : i < l.length) (hr : i < r.length),
        f (l.get ⟨i, hi⟩) = .ok (r.get ⟨i, hr⟩)
  | [], _, _, _, hi, _ => absurd hi (by simp)
  | x :: xs, r, h, i, hi, hr => by
      unfold mapExcept at h
      cases hfx : f x with
      | error e => rw [hfx] at h; exact absurd h (by simp)
      | ok y =>
        rw [hfx] at h
        cases hm : mapExcept f xs with
        | error e => rw [hm] at h; exact absurd h (by simp)
        | ok ys =>
          rw [hm] at h
          injection h with h2
          subst h2
          cases i with
          | zero => simpa using hfx
          | succ j =>
            exact mapExcept_ok_get f xs ys hm j (by simpa using hi) (by simpa using hr)

theorem isErr_mapExcept_of_mem (f : Val → Except Err Val) :
    ∀ (l : List Val) (d : Val) (e : Err), d ∈ l → f d = .error e →
      isErr (mapExcept f l) = true
  | [], d, _, hd, _ => absurd hd (List.not_mem_nil d)
  | x :: xs, d, e, hd, he => by
      unfold mapExcept
      rcases List.mem_cons.mp hd with h | h
      · subst h
        rw [he]
        rfl
      · cases hfx : f x with
        | error e2 => rfl
        | ok y =>
          have ih := isErr_mapExcept_of_mem f xs d e h he
          cases hm : mapExcept f xs with
          | error e2 => rfl
          | ok ys => rw [hm] at ih; exact absurd ih (by simp [isErr])

theorem mapExcept_outputStage_none :
    ∀ (l : List Val), mapExcept (outputStage none) l = .ok l
  | [] => rfl
  | x :: xs => by
      unfold mapExcept
      rw [mapExcept_outputStage_none xs]
      rfl

/-- C1, counterexample: with the input schema omitted, the callable returned by
`typedMethod` does NOT forward the raw input to the host transport.  Against an
echo transport (which resolves with exactly the argument it received) and raw
input `5`, the call resolves to `undefined`: the transport received `undefined`,
not `5`, because `props.input?.parse(x)` short-circuits to `undefined`. -/
theorem claim_C1_counterexample :
    (typedMethod false ⟨"m", none, none, fun v => .ok v⟩ []).2
        echoTransport (Val.num 5)
      = (MethodOutcome.resolved Val.undef, 1)
    ∧ Val.undef ≠ Val.num 5 :=
  ⟨rfl, fun h => nomatch h⟩

/-- C1 (amended), with each omitted stage treated independently of the other
schema: (1) if `typedMethod`'s input schema is omitted, the value forwarded to
the host transport is `undefined` — not the raw input — because
`props.input?.parse(x)` short-circuits to `undefined`, and no input-validation
error is ever raised (the outcome is entirely the transport's and output
stage's, never `syncError`), whatever the output schema; (2) if `typedMethod`'s
output schema is omitted, the output stage is an identity pass-through: the
resolved value equals the raw transport response and no output-validation error
is raised, whatever the input schema; (3) if `typedSubscribe`'s input schema is
omitted, the subscribe request carries `undefined` — not the raw input — and no
input-validation error is raised (the result is entirely the document
mapping's), whatever the output schema; (4) if `typedSubscribe`'s output schema
is omitted, the current documents are returned unchanged with no
output-validation error, whatever the input schema. -/
theorem claim_C1 (mp : TypedMethodProps) (sp : TypedSubscribeProps)
    (t : Transport) (store : String → List Val) (x y a b raw : Val) :
    (mp.input = none →
      methodCall mp t x =
        (match t mp.name Val.undef with
         | .error e => (MethodOutcome.transportError e, 1)
         | .ok r =>
           match outputStage mp.output r with
           | .error e => (MethodOutcome.outputError e, 1)
           | .ok v => (MethodOutcome.resolved v, 1)))
    ∧ (mp.output = none → optionalParse mp.input x = .ok a →
        t mp.name a = .ok raw → methodCall mp t x = (.resolved raw, 1))
    ∧ (sp.input = none →
        subscribeCall sp store y
          = (mapExcept (outputStage sp.output) (store sp.collection),
             [(sp.name, Val.undef)]))
    ∧ (sp.output = none → optionalParse sp.input y = .ok b →
        subscribeCall sp store y
          = (.ok (store sp.collection), [(sp.name, b)])) := by
  refine ⟨fun hmi => ?_, fun hmo hin ht => ?_, fun hsi => ?_, fun hso hin => ?_⟩
  · simp only [methodCall, optionalParse, hmi]
  · simp [methodCall, hin, ht, outputStage, hmo]
  · simp only [subscribeCall, optionalParse, hsi]
    cases mapExcept (outputStage sp.output) (store sp.collection) with
    | error e => rfl
    | ok docs => rfl
  · simp only [subscribeCall]
    rw [hin, hso, mapExcept_outputStage_none]

/-- C1 witness: the four stages of the amended claim at concrete definitions,
including the mixed cases: a method with input omitted but an output schema
present forwards `undefined` (here the echoed `undefined` then fails the output
schema, proving the transport saw `undefined`, not `5`); a method with an input
schema but output omitted resolves with the raw transport response; a
subscription with input omitted but an output schema present subscribes with
`undefined`; a subscription with an input schema but output omitted returns the
raw documents. -/
theorem claim_C1_witness :
    methodCall ⟨"m", none, some numSchema, fun v => .ok v⟩ echoTransport
        (Val.num 5) = (MethodOutcome.outputError "expected number", 1)
    ∧ methodCall ⟨"m", some numSchema, none, fun v => .ok v⟩
        (fun _ _ => .ok (Val.str "raw")) (Val.num 5)
      = (MethodOutcome.resolved (Val.str "raw"), 1)
    ∧ subscribeCall ⟨"s", none, some numSchema, "coll", fun _ => none⟩
        (fun _ => [Val.num 1]) (Val.num 5)
      = (.ok [Val.num 1], [("s", Val.undef)])
    ∧ subscribeCall ⟨"s", some numSchema, none, "coll", fun _ => none⟩
        (fun _ => [Val.str "d"]) (Val.num 3)
      = (.ok [Val.str "d"], [("s", Val.num 3)]) := by
  refine ⟨?_, ?_, ?_, ?_⟩
  · exact (claim_C1 ⟨"m", none, some numSchema, fun v => .ok v⟩
      ⟨"s", none, none, "coll", fun _ => none⟩ echoTransport
      (fun _ => []) (Val.num 5) Val.undef Val.undef Val.undef Val.undef).1 rfl
  · exact (claim_C1 ⟨"m", some numSchema, none, fun v => .ok v⟩
      ⟨"s", none, none, "coll", fun _ => none⟩ (fun _ _ => .ok (Val.str "raw"))
      (fun _ => []) (Val.num 5) Val.undef (Val.num 5) Val.undef
      (Val.str "raw")).2.1 rfl rfl rfl
  · exact (claim_C1 ⟨"m", none, none, fun v => .ok v⟩
      ⟨"s", none, some numSchema, "coll", fun _ => none⟩ echoTransport
      (fun _ => [Val.num 1]) Val.undef (Val.num 5) Val.undef Val.undef
      Val.undef).2.2.1 rfl
  · exact (claim_C1 ⟨"m", none, none, fun v => .ok v⟩
      ⟨"s", some numSchema, none, "coll", fun _ => none⟩ echoTransport
      (fun _ => [Val.str "d"]) Val.undef (Val.num 3) Val.undef (Val.num 3)
      Val.undef).2.2.2 rfl rfl

/-- C2: with an input schema declared, a raw input failing it makes the callable
throw the validation error synchronously (`syncError`, raised by the argument
expression before `Meteor.callAsync` runs) with the transport invoked zero
times; a raw input passing it leads to exactly one transport invocation. -/
theorem claim_C2 (props : TypedMethodProps) (s : Schema) (t : Transport) (x : Val)
    (hs : props.input = some s) :
    (∀ e, s.parse x = .error e → methodCall props t x = (.syncError e, 0))
    ∧ (∀ v, s.parse x = .ok v → (methodCall props t x).2 = 1) := by
  constructor
  · intro e he
    simp [methodCall, optionalParse, hs, he]
  · intro v hv
    simp only [methodCall, optionalParse, hs, hv]
    cases h1 : t props.name v with
    | error e => rfl
    | ok raw =>
      cases h2 : outputStage props.output raw with
      | error e => simp [h2]
      | ok r => simp [h2]

/-- C2 witness: a string input failing `z.number()` yields a synchronous
validation error and zero transport calls; the number `3` passes and yields
exactly one transport call. -/
theorem claim_C2_witness :
    methodCall ⟨"m", some numSchema, none, fun v => .ok v⟩ echoTransport
        (Val.str "hi") = (MethodOutcome.syncError "expected number", 0)
    ∧ (methodCall ⟨"m", some numSchema, none, fun v => .ok v⟩ echoTransport
        (Val.num 3)).2 = 1 :=
  ⟨(claim_C2 ⟨"m", some numSchema, none, fun v => .ok v⟩ numSchema echoTransport
      (Val.str "hi") rfl).1 "expected number" rfl,
   (claim_C2 ⟨"m", some numSchema, none, fun v => .ok v⟩ numSchema echoTransport
      (Val.num 3) rfl).2 (Val.num 3) rfl⟩

/-- C3, counterexample: with an output schema present whose parse of the raw
transport value `5` succeeds with `null` (models `z.any().transform(() => null)`),
the callable resolves with the raw value `5`, not with the parse result `null`:
the `?? x` fallback discards a nullish parse result, so the callable does not
always resolve to `outputSchema.parse(v)`. -/
theorem claim_C3_counterexample :
    (typedMethod false ⟨"m", none, some nullifySchema, fun v => .ok v⟩ []).2
        (fun _ _ => .ok (Val.num 5)) (Val.num 0)
      = (MethodOutcome.resolved (Val.num 5), 1)
    ∧ nullifySchema.parse (Val.num 5) = .ok Val.null
    ∧ Val.num 5 ≠ Val.null :=
  ⟨rfl, rfl, fun h => nomatch h⟩

/-- C3 (amended): with an output schema present, when the transport resolves
with raw value `v`: if `outputSchema.parse v` throws, the callable rejects with
that output-validation error (never resolving with an unvalidated or coerced
value); if the parse succeeds with a non-nullish value `r`, the callable
resolves to `r`; if the parse succeeds with a nullish value, the `?? x`
fallback makes the callable resolve with the raw `v` instead. -/
theorem claim_C3 (props : TypedMethodProps) (s : Schema) (t : Transport)
    (x a v : Val)
    (hout : props.output = some s)
    (hin : optionalParse props.input x = .ok a)
    (ht : t props.name a = .ok v) :
    (∀ e, s.parse v = .error e → methodCall props t x = (.outputError e, 1))
    ∧ (∀ r, s.parse v = .ok r → isNullish r = false →
        methodCall props t x = (.resolved r, 1))
    ∧ (∀ r, s.parse v = .ok r → isNullish r = true →
        methodCall props t x = (.resolved v, 1)) := by
  refine ⟨fun e he => ?_, fun r hr hn => ?_, fun r hr hn => ?_⟩
  · simp [methodCall, hin, ht, outputStage, hout, he, Except.map]
  · simp [methodCall, hin, ht, outputStage, hout, hr, hn, Except.map]
  · simp [methodCall, hin, ht, outputStage, hout, hr, hn, Except.map]

/-- C3 witness: the three branches of the amended claim at concrete schemas,
transports and values: a failing parse rejects with the output error, a
non-nullish parse result is resolved, and a nullish parse result falls back to
the raw transport value. -/
theorem claim_C3_witness :
    methodCall ⟨"m", none, some numSchema, fun v => .ok v⟩
        (fun _ _ => .ok (Val.str "no")) (Val.num 0)
      = (MethodOutcome.outputError "expected number", 1)
    ∧ methodCall ⟨"m", none, some numSchema, fun v => .ok v⟩
        (fun _ _ => .ok (Val.num 7)) (Val.num 0)
      = (MethodOutcome.resolved (Val.num 7), 1)
    ∧ methodCall ⟨"m", none, some nullifySchema, fun v => .ok v⟩
        (fun _ _ => .ok (Val.num 5)) (Val.num 0)
      = (MethodOutcome.resolved (Val.num 5), 1) :=
  ⟨(claim_C3 ⟨"m", none, some numSchema, fun v => .ok v⟩ numSchema
      (fun _ _ => .ok (Val.str "no")) (Val.num 0) Val.undef (Val.str "no")
      rfl rfl rfl).1 "expected number" rfl,
   (claim_C3 ⟨"m", none, some numSchema, fun v => .ok v⟩ numSchema
      (fun _ _ => .ok (Val.num 7)) (Val.num 0) Val.undef (Val.num 7)
      rfl rfl rfl).2.1 (Val.num 7) rfl rfl,
   (claim_C3 ⟨"m", none, some nullifySchema, fun v => .ok v⟩ nullifySchema
      (fun _ _ => .ok (Val.num 5)) (Val.num 0) Val.undef (Val.num 5)
      rfl rfl rfl).2.2 Val.null rfl rfl⟩

/-- C4: with an output schema present, if any document currently in the bound
collection fails the schema, the function returned by `typedSubscribe` throws
(the `.map` callback throws, aborting the invocation) rather than returning a
partial array with that document dropped. -/
theorem claim_C4 (props : TypedSubscribeProps) (s : Schema)
    (store : String → List Val) (x d : Val) (e : Err)
    (hout : props.output = some s)
    (hd : d ∈ store props.collection)
    (he : s.parse d = .error e) :
    isErr (subscribeCall props store x).1 = true := by
  unfold subscribeCall
  cases hin : optionalParse props.input x with
  | error e2 => rfl
  | ok arg =>
    have hm : isErr (mapExcept (outputStage props.output)
        (store props.collection)) = true := by
      refine isErr_mapExcept_of_mem _ _ d e hd ?_
      simp [outputStage, hout, he, Except.map]
    cases hmE : mapExcept (outputStage props.output) (store props.collection) with
    | error e2 => rfl
    | ok docs => rw [hmE] at hm; exact absurd hm (by simp [isErr])

/-- C4 witness: a collection holding `[1, "x"]` under an output schema
`z.number()` makes the subscription call fail loudly (the string document fails
validation). -/
theorem claim_C4_witness :
    isErr (subscribeCall ⟨"s", none, some numSchema, "todos", fun _ => none⟩
      (fun _ => [Val.num 1, Val.str "x"]) (Val.num 0)).1 = true :=
  claim_C4 ⟨"s", none, some numSchema, "todos", fun _ => none⟩ numSchema
    (fun _ => [Val.num 1, Val.str "x"]) (Val.num 0) (Val.str "x")
    "expected number" rfl (List.Mem.tail _ (List.Mem.head _)) rfl

/-- C5: when the input passes the declared input schema and every current
document maps successfully through the output stage, one invocation of the
function returned by `typedSubscribe` issues exactly one subscribe request
under the definition's name carrying the validated input (issued before the
collection is read: it is recorded even when the later mapping throws, see the
embedding of `subscribeCall`), and returns the array obtained by mapping each
current document of the bound collection through the output stage, preserving
document count and order (element `i` of the result is the image of document
`i`). -/
theorem claim_C5 (props : TypedSubscribeProps) (s : Schema)
    (store : String → List Val) (x v : Val) (r : List Val)
    (hin : props.input = some s) (hp : s.parse x = .ok v)
    (hm : mapExcept (outputStage props.output) (store props.collection) = .ok r) :
    subscribeCall props store x = (.ok r, [(props.name, v)])
    ∧ r.length = (store props.collection).length
    ∧ ∀ (i : Nat) (hi : i < (store props.collection).length) (hr : i < r.length),
        outputStage props.output ((store props.collection).get ⟨i, hi⟩)
          = .ok (r.get ⟨i, hr⟩) := by
  refine ⟨?_, mapExcept_ok_length _ _ _ hm,
    fun i hi hr => mapExcept_ok_get _ _ _ hm i hi hr⟩
  simp [subscribeCall, optionalParse, hin, hp, hm]

/-- C5 witness: a subscription with input and output schemas `z.number()`, a
store holding `[1, 2]`, and input `3`: one subscribe request `("s", 3)` is
issued and the validated documents come back in order. -/
theorem claim_C5_witness :
    subscribeCall ⟨"s", some numSchema, some numSchema, "todos", fun _ => none⟩
        (fun _ => [Val.num 1, Val.num 2]) (Val.num 3)
      = (.ok [Val.num 1, Val.num 2], [("s", Val.num 3)]) :=
  (claim_C5 ⟨"s", some numSchema, some numSchema, "todos", fun _ => none⟩
    numSchema (fun _ => [Val.num 1, Val.num 2]) (Val.num 3) (Val.num 3)
    [Val.num 1, Val.num 2] rfl rfl rfl).1

/-- C6: construction registers the definition's `fn` under its `name` exactly
in the server role: `typedMethod` with `isServer = true` makes the method
registry map the name to `fn`, and `typedSubscribe` with `isServer = true` does
the same in the publication registry; with `isServer = false` construction
leaves the registries unchanged. -/
theorem claim_C6 (mp : TypedMethodProps) (sp : TypedSubscribeProps)
    (mreg : MethodRegistry) (preg : PubRegistry) :
    lookupReg (typedMethod true mp mreg).1 mp.name = some mp.fn
    ∧ (typedMethod false mp mreg).1 = mreg
    ∧ lookupReg (typedSubscribe true sp preg).1 sp.name = some sp.fn
    ∧ (typedSubscribe false sp preg).1 = preg := by
  refine ⟨?_, rfl, ?_, rfl⟩ <;> simp [typedMethod, typedSubscribe, lookupReg]

/-- C7, round trip: with the definition registered server-side and the
transport dispatching to that registry, if the input stage validates to `a`,
the registered handler resolves `a` to `v`, and `outputSchema.parse v = v`,
then the callable resolves to `v` unchanged (the handler received exactly the
validated value, and the `?? ` fallback is irrelevant because raw response and
parse result coincide). -/
theorem claim_C7 (props : TypedMethodProps) (reg : MethodRegistry) (s : Schema)
    (x a v : Val)
    (hin : optionalParse props.input x = .ok a)
    (hfn : props.fn a = .ok v)
    (hout : props.output = some s)
    (hv : s.parse v = .ok v) :
    methodCall props (dispatch (typedMethod true props reg).1) x
      = (.resolved v, 1) := by
  have hd : dispatch (typedMethod true props reg).1 props.name a = .ok v := by
    simp [dispatch, typedMethod, lookupReg, hfn]
  simp [methodCall, hin, hd, outputStage, hout, hv, Except.map]

/-- C7 witness: an echo handler under input and output schemas `z.number()`,
registered in an empty registry and called in-process with `3`, resolves to
`3` unchanged. -/
theorem claim_C7_witness :
    methodCall ⟨"m", some numSchema, some numSchema, fun v => .ok v⟩
      (dispatch (typedMethod true
        ⟨"m", some numSchema, some numSchema, fun v => .ok v⟩ []).1)
      (Val.num 3) = (MethodOutcome.resolved (Val.num 3), 1) :=
  claim_C7 ⟨"m", some numSchema, some numSchema, fun v => .ok v⟩ [] numSchema
    (Val.num 3) (Val.num 3) (Val.num 3) rfl rfl rfl rfl

/-- C8: when the input stage validates and the host transport rejects with
error `e`, the callable rejects with exactly `e`, unmodified
(`transportError e`, the rejection skipping the `.then` callback), and the
output-validation stage is never performed — the outcome is the same for every
output schema the definition could carry. -/
theorem claim_C8 (props : TypedMethodProps) (t : Transport) (x a : Val) (e : Err)
    (hin : optionalParse props.input x = .ok a)
    (ht : t props.name a = .error e) :
    methodCall props t x = (.transportError e, 1)
    ∧ ∀ (o : Option Schema),
        methodCall ⟨props.name, props.input, o, props.fn⟩ t x
          = (.transportError e, 1) := by
  constructor
  · simp [methodCall, hin, ht]
  · intro o
    simp [methodCall, optionalParse]
    cases hi : props.input with
    | none =>
      rw [hi] at hin
      injection hin with h2
      subst h2
      simp [ht]
    | some si =>
      rw [hi] at hin
      simp only [optionalParse] at hin
      simp [hin, ht]

/-- C8 witness: a transport rejecting with "network" makes the call reject with
exactly that error, with or without an output schema declared. -/
theorem claim_C8_witness :
    methodCall ⟨"m", some numSchema, none, fun v => .ok v⟩
        (fun _ _ => .error "network") (Val.num 1)
      = (MethodOutcome.transportError "network", 1)
    ∧ methodCall ⟨"m", some numSchema, some numSchema, fun v => .ok v⟩
        (fun _ _ => .error "network") (Val.num 1)
      = (MethodOutcome.transportError "network", 1) :=
  ⟨(claim_C8 ⟨"m", some numSchema, none, fun v => .ok v⟩
      (fun _ _ => .error "network") (Val.num 1) (Val.num 1) "network"
      rfl rfl).1,
   (claim_C8 ⟨"m", some numSchema, none, fun v => .ok v⟩
      (fun _ _ => .error "network") (Val.num 1) (Val.num 1) "network"
      rfl rfl).2 (some numSchema)⟩

/-- C9: in both `typedMethod` and `typedSubscribe`, when an output schema is
present but its parse of the raw value succeeds with a nullish result (`null`
or `undefined`), the `?? x` fallback returns the raw unvalidated value in its
place: the method call resolves with the raw transport response, and the
subscription returns the raw document. -/
theorem claim_C9 (s : Schema) (mp : TypedMethodProps) (sp : TypedSubscribeProps)
    (t : Transport) (store : String → List Val) (x r a b i j : Val)
    (hp : s.parse x = .ok r) (hn : isNullish r = true)
    (hmo : mp.output = some s) (hso : sp.output = some s)
    (hmi : optionalParse mp.input i = .ok a)
    (hsi : optionalParse sp.input j = .ok b)
    (ht : t mp.name a = .ok x)
    (hst : store sp.collection = [x]) :
    methodCall mp t i = (.resolved x, 1)
    ∧ subscribeCall sp store j = (.ok [x], [(sp.name, b)]) := by
  constructor
  · simp [methodCall, hmi, ht, outputStage, hmo, hp, hn, Except.map]
  · simp [subscribeCall, hsi, hst, mapExcept, outputStage, hso, hp, hn,
      Except.map]

/-- C9 witness: `nullifySchema` (a schema whose parse succeeds with `null`) as
output schema, raw value `5`: the method resolves with the raw `5` and the
subscription returns the raw document `5`. -/
theorem claim_C9_witness :
    methodCall ⟨"m", none, some nullifySchema, fun v => .ok v⟩
        (fun _ _ => .ok (Val.num 5)) (Val.num 0)
      = (MethodOutcome.resolved (Val.num 5), 1)
    ∧ subscribeCall ⟨"s", none, some nullifySchema, "c", fun _ => none⟩
        (fun _ => [Val.num 5]) (Val.num 0)
      = (.ok [Val.num 5], [("s", Val.undef)]) :=
  claim_C9 nullifySchema ⟨"m", none, some nullifySchema, fun v => .ok v⟩
    ⟨"s", none, some nullifySchema, "c", fun _ => none⟩
    (fun _ _ => .ok (Val.num 5)) (fun _ => [Val.num 5])
    (Val.num 5) Val.null Val.undef Val.undef (Val.num 0) (Val.num 0)
    rfl rfl rfl rfl rfl rfl rfl rfl

/-- C10: server-side registration stores `props.fn` itself, with no validation
wrapper: dispatching any input `w` — including one the declared input schema
would reject — through the host call registry applies `props.fn` to `w` as-is,
and the publication registry likewise applies the registered publisher to `w`
as-is; the input schema is applied only in the client-side callable. -/
theorem claim_C10 (mp : TypedMethodProps) (sp : TypedSubscribeProps)
    (mreg : MethodRegistry) (preg : PubRegistry) (w : Val) :
    dispatch (typedMethod true mp mreg).1 mp.name w = mp.fn w
    ∧ pubDispatch (typedSubscribe true sp preg).1 sp.name w = some (sp.fn w) := by
  constructor <;>
    simp [dispatch, pubDispatch, typedMethod, typedSubscribe, lookupReg]

end TypedMeteor
